import Mathlib

/-!
Shallow embedding of the geekdo-sync incremental synchronizer
(`src/sync.py`, `src/geekdo/extractors.py`, `src/geekdo/schemas.py`,
`src/geekdo_sync/grist/models.py`) and proofs of the specification
claims about it.

External collaborators (the BGG HTTP client and the pygrister Grist
client) are modelled as explicit inputs: the source API is a list of
pages, the destination store is a list of tables of rows, and a store
call that may raise is an `Except` value.
-/

namespace GeekdoSync

/-! ### Association lists (Python `dict` with insertion order) -/

/-- Lookup in an insertion-ordered association list (Python `dict` access /
`in` test). Keys are unique by construction in all dicts built below. -/
def dictLookup {α : Type} (k : String) : List (String × α) → Option α
  | [] => none
  | (a, b) :: rest => if a = k then some b else dictLookup k rest

/-- Python `d[k] = v`: overwrite the value if the key is present,
otherwise append the new binding at the end (insertion order). -/
def dictInsert {α : Type} (m : List (String × α)) (k : String) (v : α) : List (String × α) :=
  if (dictLookup k m).isSome then
    m.map (fun kv => if kv.1 = k then (k, v) else kv)
  else
    m ++ [(k, v)]

/-! ### Source API data model (`src/geekdo/schemas.py`) -/

/-- Embeds `APIItem`: the item element of a play (`schemas.py`). `subtype` is the
computed first-subtype field. -/
structure APIItem where
  name : String
  objecttype : String
  objectid : String
  subtype : String
deriving DecidableEq, Repr

/-- Embeds `APIPlayer`: a participant entry of a play (`schemas.py`). -/
structure APIPlayer where
  username : Option String
  userid : Option String
  name : String
  startposition : Option String
  color : Option String
  score : Option Int
  new : Option Bool
  rating : Option Int
  win : Option Bool
deriving DecidableEq, Repr

/-- Embeds `APIPlayers`: wrapper holding the list of participant entries. -/
structure APIPlayers where
  player : List APIPlayer
deriving DecidableEq, Repr

/-- Embeds `APIPlay`: one dated play record (`schemas.py`). Dates are modelled as
integers (day numbers); only ordering and day arithmetic are used. -/
structure APIPlay where
  id : String
  date : Int
  quantity : Int
  length : Int
  incomplete : Bool
  nowinstats : Bool
  location : Option String
  item : APIItem
  comments : Option String
  players : Option APIPlayers
deriving DecidableEq, Repr

/-- The participants of a play: `play.players.player`, or `[]` when the
play has no participant list (Python `if not play.players: continue`). -/
def playersOf (play : APIPlay) : List APIPlayer :=
  match play.players with
  | none => []
  | some ps => ps.player

/-! ### Entity extractors (`src/geekdo/extractors.py`) -/

/-- Loop body of `extract_unique_items`: walk the plays, inserting
`play.item` under key `play.item.objectid` only when the key is absent. -/
def extract_unique_items_go (acc : List (String × APIItem)) :
    List APIPlay → List (String × APIItem)
  | [] => acc
  | play :: rest =>
    if (dictLookup play.item.objectid acc).isSome then
      extract_unique_items_go acc rest
    else
      extract_unique_items_go (acc ++ [(play.item.objectid, play.item)]) rest

/-- Embeds `extract_unique_items(plays)`: dictionary mapping item objectid to the
first `APIItem` carrying it. -/
def extract_unique_items (plays : List APIPlay) : List (String × APIItem) :=
  extract_unique_items_go [] plays

/-- Inner loop of `extract_unique_players`: walk one play's participants,
inserting each under its display name only when the name is absent. -/
def extract_unique_players_go (acc : List (String × APIPlayer)) :
    List APIPlayer → List (String × APIPlayer)
  | [] => acc
  | pl :: rest =>
    if (dictLookup pl.name acc).isSome then
      extract_unique_players_go acc rest
    else
      extract_unique_players_go (acc ++ [(pl.name, pl)]) rest

/-- Embeds `extract_unique_players(plays)`: nested loop over plays and each
play's participants (plays without a participant list are skipped). -/
def extract_unique_players (plays : List APIPlay) : List (String × APIPlayer) :=
  plays.foldl (fun acc play => extract_unique_players_go acc (playersOf play)) []

/-! ### Overlap-bounded fetcher (`GristSync.fetch_new_plays_until_overlap`) -/

/-- Holds when `page_play_ids & existing_play_ids` is non-empty: some play id of the
page belongs to the existing-id set. -/
def pageOverlaps (page : List APIPlay) (existing : List String) : Bool :=
  page.any (fun play => existing.contains play.id)

/-- Embeds `GristSync.fetch_new_plays_until_overlap` with the source API
modelled as the list of pages it returns (page 1 first; past the end of
the list the source answers an empty page, which is the loop's
end-of-data break). Loop body, in source order: empty page → stop;
overlap → append only the new plays of this page and stop; page shorter
than 100 → append it and stop; otherwise append the whole page and
continue with the next page. -/
def fetch_new_plays_until_overlap (existing : List String) :
    List (List APIPlay) → List APIPlay
  | [] => []
  | page :: rest =>
    if page.isEmpty then []
    else if pageOverlaps page existing then
      page.filter (fun play => !(existing.contains play.id))
    else if page.length < 100 then
      page
    else
      page ++ fetch_new_plays_until_overlap existing rest

/-- Number of pages the fetch loop requests before stopping (page 1 is
always requested, even when the source is empty). -/
def pagesRequested (existing : List String) : List (List APIPlay) → Nat
  | [] => 1
  | page :: rest =>
    if page.isEmpty then 1
    else if pageOverlaps page existing then 1
    else if page.length < 100 then 1
    else 1 + pagesRequested existing rest

/-! ### Grist record values and upsert payloads (`grist/models.py`) -/

/-- A Grist cell value: string, integer (also used for dates serialized
as day numbers and for row references), boolean, or null (Python `None`
after `model_dump`). -/
inductive GVal where
  | s (v : String)
  | i (v : Int)
  | b (v : Bool)
  | null
deriving DecidableEq, Repr

/-- Dump (`model_dump`) of an `Optional[str]` field. -/
def optS : Option String → GVal
  | none => .null
  | some v => .s v

/-- Dump (`model_dump`) of an `Optional[int]` field. -/
def optI : Option Int → GVal
  | none => .null
  | some v => .i v

/-- Dump (`model_dump`) of an `Optional[bool]` field. -/
def optB : Option Bool → GVal
  | none => .null
  | some v => .b v

/-- A dumped field dictionary (field name → value). -/
abbrev GFields : Type := List (String × GVal)

/-- Embeds `GristUpsertRecord` (`grist/models.py`): the require/fields structure
handed to the store's `add_update_records`. -/
structure GristUpsertRecord where
  require : GFields
  fields : GFields
deriving DecidableEq, Repr

/-- Embeds `GristItemUpsert` (`grist/models.py`); `ItemID` is the GeekDo item
objectid, the natural key for upsert. -/
structure GristItemUpsert where
  ItemID : String
  Name : String
  Subtype : String
  Type' : String
deriving DecidableEq, Repr

/-- Embeds `GristItemUpsert.to_upsert_record` (`Type'` embeds the source field
named `Type`, which is a reserved word here). -/
def GristItemUpsert.to_upsert_record (x : GristItemUpsert) : GristUpsertRecord :=
  { require := [("ItemID", .s x.ItemID)]
    fields := [("Name", .s x.Name), ("Subtype", .s x.Subtype), ("Type", .s x.Type')] }

/-- Embeds `GristPlayerUpsert` (`grist/models.py`); `Name` is the display name,
the natural key for upsert. -/
structure GristPlayerUpsert where
  Name : String
  Username : Option String
  UserID : Option String
deriving DecidableEq, Repr

/-- Embeds `GristPlayerUpsert.to_upsert_record`. -/
def GristPlayerUpsert.to_upsert_record (x : GristPlayerUpsert) : GristUpsertRecord :=
  { require := [("Name", .s x.Name)]
    fields := [("Username", optS x.Username), ("UserID", optS x.UserID)] }

/-- Embeds `GristPlayUpsert` (`grist/models.py`); `PlayID` is the GeekDo play
id, the natural key for upsert; `Item` is a Grist row reference. -/
structure GristPlayUpsert where
  PlayID : String
  Date : Int
  Item : Nat
  Quantity : Int
  Length_Minutes : Int
  Comment : Option String
  Location : Option String
deriving DecidableEq, Repr

/-- Embeds `GristPlayUpsert.to_upsert_record`. -/
def GristPlayUpsert.to_upsert_record (x : GristPlayUpsert) : GristUpsertRecord :=
  { require := [("PlayID", .s x.PlayID)]
    fields := [("Date", .i x.Date), ("Item", .i x.Item), ("Quantity", .i x.Quantity),
               ("Length_Minutes", .i x.Length_Minutes), ("Comment", optS x.Comment),
               ("Location", optS x.Location)] }

/-- Embeds `GristPlayerPlayUpsert` (`grist/models.py`); `Play` and `Player` are
Grist row references forming the natural key of a link row. -/
structure GristPlayerPlayUpsert where
  Play : Nat
  Player : Nat
  StartPosition : Option String
  Color : Option String
  Score : Option Int
  Rating : Option Int
  New : Option Bool
  Win : Option Bool
deriving DecidableEq, Repr

/-- Embeds `GristPlayerPlayUpsert.model_dump()`: the flat field dictionary
passed to `add_records` by `sync_player_plays`. -/
def GristPlayerPlayUpsert.model_dump (x : GristPlayerPlayUpsert) : GFields :=
  [("Play", .i x.Play), ("Player", .i x.Player),
   ("StartPosition", optS x.StartPosition), ("Color", optS x.Color),
   ("Score", optI x.Score), ("Rating", optI x.Rating),
   ("New", optB x.New), ("Win", optB x.Win)]

/-- Embeds `GristPlayerPlayUpsert.to_upsert_record` (defined in
`grist/models.py` but not used by `sync_player_plays`). -/
def GristPlayerPlayUpsert.to_upsert_record (x : GristPlayerPlayUpsert) : GristUpsertRecord :=
  { require := [("Play", .i x.Play), ("Player", .i x.Player)]
    fields := [("StartPosition", optS x.StartPosition), ("Color", optS x.Color),
               ("Score", optI x.Score), ("Rating", optI x.Rating),
               ("New", optB x.New), ("Win", optB x.Win)] }

/-! ### Grist output records (rows read back from the store) -/

/-- Embeds `GristItemOutput`: an Items row with its surrogate row id. -/
structure GristItemOutput where
  id : Nat
  ItemID : String
  Name : String
  Subtype : String
  Type' : String
deriving DecidableEq, Repr

/-- Embeds `GristPlayerOutput`: a Players row with its surrogate row id. -/
structure GristPlayerOutput where
  id : Nat
  Name : String
  Username : Option String
  UserID : Option String
deriving DecidableEq, Repr

/-- Embeds `GristPlayOutput`: a Plays row with its surrogate row id. -/
structure GristPlayOutput where
  id : Nat
  PlayID : String
  Date : Int
  Item : Nat
  Quantity : Int
  Length_Minutes : Int
  Comment : Option String
  Location : Option String
deriving DecidableEq, Repr

/-- Embeds `GristPlayerPlayOutput`: a PlayerPlays row with its surrogate row id. -/
structure GristPlayerPlayOutput where
  id : Nat
  Play : Nat
  Player : Nat
  StartPosition : Option String
  Color : Option String
  Score : Option Int
  Rating : Option Int
  New : Option Bool
  Win : Option Bool
deriving DecidableEq, Repr

/-! ### Destination store model -/

/-- A stored row, as its field dictionary. -/
abbrev GRow : Type := List (String × GVal)

/-- A row matches an upsert's `require` clause when every required field
is present in the row with the required value. -/
def matchesRequire (req : GFields) (row : GRow) : Bool :=
  req.all (fun kv => dictLookup kv.1 row == some kv.2)

/-- Overwrite one field of a row (append it when absent). -/
def setField (row : GRow) (k : String) (v : GVal) : GRow :=
  if (dictLookup k row).isSome then
    row.map (fun kv => if kv.1 = k then (k, v) else kv)
  else
    row ++ [(k, v)]

/-- Overwrite the given fields of a row, in order. -/
def updateFields (row : GRow) (fs : GFields) : GRow :=
  fs.foldl (fun r kv => setField r kv.1 kv.2) row

/-- Modelled from the spec: the destination store client's upsert of a
single require/fields record — "insert if no row matches the declared
natural key, else update the non-key fields of the matching row"
(pygrister `add_update_records`, which is outside the repository). The
first matching row is updated in place; with no match, a new row made of
the key fields followed by the other fields is appended. -/
def upsertOne : List GRow → GristUpsertRecord → List GRow
  | [], rec => [rec.require ++ rec.fields]
  | row :: rest, rec =>
    if matchesRequire rec.require row then
      updateFields row rec.fields :: rest
    else
      row :: upsertOne rest rec

/-- Modelled from the spec: `add_update_records` applied to a batch, one
record after the other. -/
def add_update_records (table : List GRow) (recs : List GristUpsertRecord) : List GRow :=
  recs.foldl upsertOne table

/-- Modelled from the spec: `add_records` — plain insertion, every given
record is appended as a new row unconditionally. -/
def add_records (table : List GRow) (recs : List GFields) : List GRow :=
  table ++ recs

/-! ### Phase 2: prepare payloads (`GristSync.prepare_*`) -/

/-- Embeds `GristSync.prepare_items`: dict comprehension over
`extract_unique_items`, keyed by objectid, converting each `APIItem`
into a `GristItemUpsert`. -/
def prepare_items (plays : List APIPlay) : List (String × GristItemUpsert) :=
  (extract_unique_items plays).map (fun kv =>
    (kv.1, { ItemID := kv.2.objectid, Name := kv.2.name,
             Subtype := kv.2.subtype, Type' := kv.2.objecttype }))

/-- Embeds `GristSync.prepare_players`: dict comprehension over
`extract_unique_players`, keyed by display name. -/
def prepare_players (plays : List APIPlay) : List (String × GristPlayerUpsert) :=
  (extract_unique_players plays).map (fun kv =>
    (kv.1, { Name := kv.2.name, Username := kv.2.username, UserID := kv.2.userid }))

/-- The `GristPlayUpsert` that `prepare_plays` builds for one play whose
item resolved to the surrogate row id `itemRef`. -/
def mkGristPlayUpsert (play : APIPlay) (itemRef : Nat) : GristPlayUpsert :=
  { PlayID := play.id, Date := play.date, Item := itemRef,
    Quantity := play.quantity, Length_Minutes := play.length,
    Comment := play.comments, Location := play.location }

/-- Embeds `GristSync.prepare_plays`: for each play look its item objectid up in
`items_mapping`; absent → skip the play with a warning, present → emit
the payload with the resolved `Item` reference. -/
def prepare_plays (plays : List APIPlay) (items_mapping : List (String × Nat)) :
    List GristPlayUpsert :=
  match plays with
  | [] => []
  | play :: rest =>
    match dictLookup play.item.objectid items_mapping with
    | none => prepare_plays rest items_mapping
    | some gid => mkGristPlayUpsert play gid :: prepare_plays rest items_mapping

/-! ### Phase 3: writes to the destination store (`GristSync.sync_*`)

Each `*_write` function is the effect of the corresponding `sync_*`
method on its destination table, with the store client's batch call
applied to the payloads the method builds. -/

/-- Embeds `GristSync.sync_players`: no players → no store call; otherwise
`add_update_records` on the `to_upsert_record` payloads of the dict's
values. -/
def sync_players_write (table : List GRow) (new_players : List (String × GristPlayerUpsert)) :
    List GRow :=
  if new_players.isEmpty then table
  else add_update_records table (new_players.map (fun kv => kv.2.to_upsert_record))

/-- Embeds `GristSync.sync_items`: no items → no store call; otherwise
`add_update_records` on the `to_upsert_record` payloads of the dict's
values. -/
def sync_items_write (table : List GRow) (new_items : List (String × GristItemUpsert)) :
    List GRow :=
  if new_items.isEmpty then table
  else add_update_records table (new_items.map (fun kv => kv.2.to_upsert_record))

/-- Embeds `GristSync.sync_plays`: filter out the plays whose `PlayID` is
already in `existing_play_ids`; nothing left → no store call; otherwise
`add_update_records` on the `to_upsert_record` payloads. -/
def sync_plays_write (table : List GRow) (plays_list : List GristPlayUpsert)
    (existing_play_ids : List (String × Nat)) : List GRow :=
  let plays_to_insert := plays_list.filter (fun p => (dictLookup p.PlayID existing_play_ids).isNone)
  if plays_to_insert.isEmpty then table
  else add_update_records table (plays_to_insert.map GristPlayUpsert.to_upsert_record)

/-- Embeds `GristSync.sync_player_plays`: no links → no store call; otherwise
`add_records` (plain insertion) on the `model_dump()` field dicts. -/
def sync_player_plays_write (table : List GRow) (player_plays_list : List GristPlayerPlayUpsert) :
    List GRow :=
  if player_plays_list.isEmpty then table
  else add_records table (player_plays_list.map GristPlayerPlayUpsert.model_dump)

/-! ### Store-call trace of `sync_plays` -/

/-- One call to the destination store client. -/
inductive StoreOp where
  | addUpdateRecordsOp (tableId : String) (records : List GristUpsertRecord)
  | addRecordsOp (tableId : String) (records : List GFields)
  | listRecordsOp (tableId : String)
deriving DecidableEq, Repr

/-- Embeds `GristSync.sync_plays` as value plus store-call trace: when every
play is filtered out it returns `existing_play_ids` with no store call;
otherwise it writes the new plays, re-lists the Plays table (the listing
result is the input `readBack`), and returns the mapping rebuilt from
the read-back rows. -/
def sync_plays (plays_list : List GristPlayUpsert) (existing_play_ids : List (String × Nat))
    (readBack : List GristPlayOutput) : List (String × Nat) × List StoreOp :=
  let plays_to_insert := plays_list.filter (fun p => (dictLookup p.PlayID existing_play_ids).isNone)
  if plays_to_insert.isEmpty then (existing_play_ids, [])
  else
    (readBack.foldl (fun m p => dictInsert m p.PlayID p.id) [],
     [StoreOp.addUpdateRecordsOp "Plays" (plays_to_insert.map GristPlayUpsert.to_upsert_record),
      StoreOp.listRecordsOp "Plays"])

/-! ### Phase 4: validation (`GristSync.validate_sync`) -/

/-- Duplicate-detection loop of checks 4 and 5: walk the ids keeping a
`seen` set; an id already seen is appended to the duplicates list. -/
def dupLoop (seen : List String) : List String → List String
  | [] => []
  | x :: rest =>
    if seen.contains x then x :: dupLoop (x :: seen) rest
    else dupLoop (x :: seen) rest

/-- Check 2 of `validate_sync`: the `invalid_play_items` list — plays
whose `Item` reference is not among the item row ids. -/
def invalid_play_items (items_data : List GristItemOutput) (plays_data : List GristPlayOutput) :
    List GristPlayOutput :=
  let valid_item_ids := items_data.map (fun item => item.id)
  plays_data.filter (fun play => !(valid_item_ids.contains play.Item))

/-- Check 3 of `validate_sync`: the `invalid_player_plays` list — up to
two entries per link row, one for a dangling `Play` reference and one
for a dangling `Player` reference. -/
def invalid_player_plays (players_data : List GristPlayerOutput)
    (plays_data : List GristPlayOutput) (player_plays_data : List GristPlayerPlayOutput) :
    List (String × Nat × Nat) :=
  let valid_play_ids := plays_data.map (fun play => play.id)
  let valid_player_ids := players_data.map (fun player => player.id)
  player_plays_data.flatMap (fun pp =>
    (if valid_play_ids.contains pp.Play then [] else [("play", pp.id, pp.Play)]) ++
    (if valid_player_ids.contains pp.Player then [] else [("player", pp.id, pp.Player)]))

/-- Check 4 of `validate_sync`: the `duplicate_play_ids` list. -/
def duplicate_play_ids (plays_data : List GristPlayOutput) : List String :=
  dupLoop [] (plays_data.map (fun play => play.PlayID))

/-- Check 5 of `validate_sync`: the `duplicate_item_ids` list. -/
def duplicate_item_ids (items_data : List GristItemOutput) : List String :=
  dupLoop [] (items_data.map (fun item => item.ItemID))

/-- Embeds `GristSync.validate_sync` on the four listed tables. Check 1 (row
counts, zero plays) only logs; checks 2–5 each set `validation_passed`
to false on a violation and all of them are evaluated. -/
def validate_sync (items_data : List GristItemOutput) (players_data : List GristPlayerOutput)
    (plays_data : List GristPlayOutput) (player_plays_data : List GristPlayerPlayOutput) : Bool :=
  -- Check 1: counts are logged; `plays_count == 0` produces only a warning.
  let validation_passed := true
  -- Check 2: Plays → Items references
  let validation_passed :=
    if (invalid_play_items items_data plays_data).isEmpty then validation_passed else false
  -- Check 3: PlayerPlays → Plays and Players references
  let validation_passed :=
    if (invalid_player_plays players_data plays_data player_plays_data).isEmpty then
      validation_passed
    else false
  -- Check 4: duplicate PlayIDs
  let validation_passed :=
    if (duplicate_play_ids plays_data).isEmpty then validation_passed else false
  -- Check 5: duplicate ItemIDs
  let validation_passed :=
    if (duplicate_item_ids items_data).isEmpty then validation_passed else false
  validation_passed

/-! ### Phase 1: baseline from the store (`get_recent_plays_from_grist`,
`get_most_recent_play_date`, and the mindate logic of `run_sync`) -/

/-- Insert a row into a list sorted by `Date` descending. -/
def insertDesc (x : GristPlayOutput) : List GristPlayOutput → List GristPlayOutput
  | [] => [x]
  | y :: ys => if y.Date ≤ x.Date then x :: y :: ys else y :: insertDesc x ys

/-- Sort rows by `Date` descending (stable insertion sort). -/
def sortByDateDesc (rows : List GristPlayOutput) : List GristPlayOutput :=
  rows.foldr insertDesc []

/-- Modelled from the spec: the store's `list_records(sort="-Date",
limit=n)` on the Plays table — the stored rows sorted by date descending,
truncated to the limit (pygrister / the Grist service is outside the
repository). -/
def list_records_by_date_desc (table : List GristPlayOutput) (limit : Nat) :
    List GristPlayOutput :=
  (sortByDateDesc table).take limit

/-- Embeds `GristSync.get_recent_plays_from_grist`: the store's answer (or the
exception it raised) is the argument. An exception is caught and turned
into the empty mapping; otherwise the PlayID → row id dict is built row
by row. -/
def get_recent_plays_from_grist (resp : Except String (List GristPlayOutput)) :
    List (String × Nat) :=
  match resp with
  | .error _ => []
  | .ok plays_data => plays_data.foldl (fun m p => dictInsert m p.PlayID p.id) []

/-- Embeds `GristSync.get_most_recent_play_date`: an exception or an empty
listing gives `none`, otherwise the date of the first listed row. -/
def get_most_recent_play_date (resp : Except String (List GristPlayOutput)) : Option Int :=
  match resp with
  | .error _ => none
  | .ok [] => none
  | .ok (p :: _) => some p.Date

/-- Phase 1 of `GristSync.run_sync`: the recent-plays mapping and the
mindate handed to the fetcher. An empty mapping (no existing plays)
leaves the mindate unset; otherwise the most recent date minus one day,
or unset when no date is found. -/
def run_sync_baseline (resp1 resp2 : Except String (List GristPlayOutput)) :
    List (String × Nat) × Option Int :=
  let recent := get_recent_plays_from_grist resp1
  if recent.isEmpty then (recent, none)
  else
    match get_most_recent_play_date resp2 with
    | some d => (recent, some (d - 1))
    | none => (recent, none)

/-- The mindate `run_sync` computes against a store whose Plays table
holds `table` and answers both listings normally. -/
def run_sync_mindate (table : List GristPlayOutput) : Option Int :=
  (run_sync_baseline (.ok (list_records_by_date_desc table 100))
                     (.ok (list_records_by_date_desc table 1))).2

/-! ### Control flow of `run_sync` under exceptions -/

/-- The phases `run_sync` steps through once the fetch yields new plays.
`fetchBaseline` covers `get_recent_plays_from_grist` and
`get_most_recent_play_date` (both catch internally), `prepareEntities`
the pure prepare steps. -/
inductive SyncPhase where
  | fetchBaseline
  | fetchNew
  | prepareEntities
  | syncPlayersPhase
  | syncItemsPhase
  | syncPlaysPhase
  | syncPlayerPlaysPhase
  | validatePhase
deriving DecidableEq, Repr

/-- Order in which `run_sync` executes the phases. -/
def phaseOrder : List SyncPhase :=
  [.fetchBaseline, .fetchNew, .prepareEntities, .syncPlayersPhase,
   .syncItemsPhase, .syncPlaysPhase, .syncPlayerPlaysPhase, .validatePhase]

/-- Position of a phase in `phaseOrder`. -/
def phaseIdx : SyncPhase → Nat
  | .fetchBaseline => 0
  | .fetchNew => 1
  | .prepareEntities => 2
  | .syncPlayersPhase => 3
  | .syncItemsPhase => 4
  | .syncPlaysPhase => 5
  | .syncPlayerPlaysPhase => 6
  | .validatePhase => 7

/-- Phases whose body has its own `try/except` in the source
(`get_recent_plays_from_grist` / `get_most_recent_play_date`, and
`validate_sync`): an exception raised inside them is caught there and
never reaches `run_sync`'s top-level handler. -/
def catchesInternally : SyncPhase → Bool
  | .fetchBaseline => true
  | .validatePhase => true
  | _ => false

/-- Control flow of `run_sync`'s `try` block over the remaining phases:
a phase that raises without catching internally jumps to the top-level
`except`, which returns `False` — nothing after it executes. A raise
inside `validate_sync` is caught there and returns `False`, which
`run_sync` reports as a failed run without aborting. Returns the list of
phases that executed and the run's boolean result. -/
def runPhasesFrom (raisesIn : SyncPhase → Bool) : List SyncPhase → List SyncPhase × Bool
  | [] => ([], true)
  | ph :: rest =>
    if raisesIn ph && !catchesInternally ph then ([ph], false)
    else
      let r := runPhasesFrom raisesIn rest
      (ph :: r.1, if decide (ph = SyncPhase.validatePhase) && raisesIn ph then false else r.2)

/-- Embeds `run_sync`'s control flow on the path where the fetch returns new
plays, given which phases raise. -/
def run_sync_flow (raisesIn : SyncPhase → Bool) : List SyncPhase × Bool :=
  runPhasesFrom raisesIn phaseOrder

/-! ### Sample values for concrete witnesses -/

/-- Sample item for concrete inputs. -/
def sampleItem : APIItem :=
  { name := "Go", objecttype := "thing", objectid := "188", subtype := "boardgame" }

/-- Sample play with a given id (no participants). -/
def samplePlay (i : String) : APIPlay :=
  { id := i, date := 19900, quantity := 1, length := 30, incomplete := false,
    nowinstats := false, location := none, item := sampleItem, comments := none,
    players := none }

/-- Sample stored Plays row. -/
def samplePlayRow : GristPlayOutput :=
  { id := 7, PlayID := "p1", Date := 19900, Item := 3, Quantity := 1,
    Length_Minutes := 30, Comment := none, Location := none }

/-- Sample play payload. -/
def samplePlayUpsert : GristPlayUpsert :=
  { PlayID := "a", Date := 19900, Item := 1, Quantity := 1, Length_Minutes := 30,
    Comment := none, Location := none }

/-- Second sample play payload with the same `PlayID` and different fields. -/
def samplePlayUpsertB : GristPlayUpsert :=
  { PlayID := "a", Date := 19901, Item := 2, Quantity := 2, Length_Minutes := 45,
    Comment := some "again", Location := none }

/-- Sample link payload. -/
def samplePlayerPlay : GristPlayerPlayUpsert :=
  { Play := 1, Player := 2, StartPosition := none, Color := none, Score := none,
    Rating := none, New := none, Win := none }

/-- Sample item payload. -/
def sampleItemUpsert : GristItemUpsert :=
  { ItemID := "188", Name := "Go", Subtype := "boardgame", Type' := "thing" }

/-- Second sample item payload with the same `ItemID` and different fields. -/
def sampleItemUpsertB : GristItemUpsert :=
  { ItemID := "188", Name := "Go (2nd ed)", Subtype := "boardgame", Type' := "thing" }

/-- Sample player payload. -/
def samplePlayerUpsert : GristPlayerUpsert :=
  { Name := "Alice", Username := none, UserID := none }

/-- Second sample player payload with the same `Name` and different fields. -/
def samplePlayerUpsertB : GristPlayerUpsert :=
  { Name := "Alice", Username := some "alice1", UserID := some "42" }

end GeekdoSync

namespace GeekdoSync

/-! ## Theorems -/

/-! ### Association-list lemmas -/

theorem dictLookup_append {α : Type} (m : List (String × α)) (a k : String) (b : α) :
    dictLookup k (m ++ [(a, b)]) =
      (match dictLookup k m with
       | some v => some v
       | none => if a = k then some b else none) := by
  induction m with
  | nil => simp [dictLookup]
  | cons hd tl ih =>
    obtain ⟨x, y⟩ := hd
    by_cases hx : x = k
    · simp [dictLookup, hx]
    · simp only [List.cons_append, dictLookup, hx, if_false, List.append_eq, ih]

/-! ### C8: extractor lemmas -/

theorem extract_unique_items_go_lookup (l : List APIPlay) :
    ∀ (acc : List (String × APIItem)) (k : String),
      dictLookup k (extract_unique_items_go acc l) =
        (match dictLookup k acc with
         | some v => some v
         | none => (l.find? (fun p => p.item.objectid == k)).map (fun p => p.item)) := by
  induction l with
  | nil =>
    intro acc k
    simp only [extract_unique_items_go, List.find?_nil, Option.map_none]
    cases dictLookup k acc <;> rfl
  | cons p rest ih =>
    intro acc k
    by_cases hp : (dictLookup p.item.objectid acc).isSome
    · rw [extract_unique_items_go, if_pos hp, ih]
      by_cases hk : p.item.objectid = k
      · obtain ⟨v, hv⟩ := Option.isSome_iff_exists.mp (hk ▸ hp)
        simp [hv]
      · have hbeq : (p.item.objectid == k) = false := by
          simp [hk]
        simp [List.find?_cons, hbeq]
    · rw [extract_unique_items_go, if_neg hp, ih, dictLookup_append]
      by_cases hk : p.item.objectid = k
      · have hnone : dictLookup k acc = none := by
          rw [← hk]
          exact Option.not_isSome_iff_eq_none.mp hp
        have hbeq : (p.item.objectid == k) = true := by simp [hk]
        simp [hnone, hk, List.find?_cons, hbeq]
      · have hbeq : (p.item.objectid == k) = false := by simp [hk]
        cases hacc : dictLookup k acc <;> simp [hk, List.find?_cons, hbeq]

theorem extract_unique_players_go_lookup (l : List APIPlayer) :
    ∀ (acc : List (String × APIPlayer)) (k : String),
      dictLookup k (extract_unique_players_go acc l) =
        (match dictLookup k acc with
         | some v => some v
         | none => l.find? (fun pl => pl.name == k)) := by
  induction l with
  | nil =>
    intro acc k
    simp only [extract_unique_players_go, List.find?_nil]
    cases dictLookup k acc <;> rfl
  | cons pl rest ih =>
    intro acc k
    by_cases hp : (dictLookup pl.name acc).isSome
    · rw [extract_unique_players_go, if_pos hp, ih]
      by_cases hk : pl.name = k
      · obtain ⟨v, hv⟩ := Option.isSome_iff_exists.mp (hk ▸ hp)
        simp [hv]
      · have hbeq : (pl.name == k) = false := by simp [hk]
        simp [List.find?_cons, hbeq]
    · rw [extract_unique_players_go, if_neg hp, ih, dictLookup_append]
      by_cases hk : pl.name = k
      · have hnone : dictLookup k acc = none := by
          rw [← hk]
          exact Option.not_isSome_iff_eq_none.mp hp
        have hbeq : (pl.name == k) = true := by simp [hk]
        simp [hnone, hk, List.find?_cons, hbeq]
      · have hbeq : (pl.name == k) = false := by simp [hk]
        cases hacc : dictLookup k acc <;> simp [hk, List.find?_cons, hbeq]

theorem extract_unique_players_go_append (xs ys : List APIPlayer) :
    ∀ acc, extract_unique_players_go acc (xs ++ ys) =
      extract_unique_players_go (extract_unique_players_go acc xs) ys := by
  induction xs with
  | nil => intro acc; rfl
  | cons x xs' ih =>
    intro acc
    by_cases hx : (dictLookup x.name acc).isSome
    · rw [List.cons_append, extract_unique_players_go, if_pos hx,
          extract_unique_players_go, if_pos hx, ih]
    · rw [List.cons_append, extract_unique_players_go, if_neg hx,
          extract_unique_players_go, if_neg hx, ih]

theorem extract_unique_players_eq_go_flat (plays : List APIPlay) :
    ∀ acc, plays.foldl (fun acc play => extract_unique_players_go acc (playersOf play)) acc =
      extract_unique_players_go acc (plays.flatMap playersOf) := by
  induction plays with
  | nil => intro acc; rfl
  | cons p rest ih =>
    intro acc
    rw [List.foldl_cons, ih, List.flatMap_cons, extract_unique_players_go_append]

/-- C8: `extract_unique_items` and `extract_unique_players` are
first-occurrence-wins derivations: looking up a key in the resulting
dictionary yields the first play item with that objectid (respectively
the first participant with that display name, in play order then
participant order), later occurrences being discarded; plays whose
participant list is absent contribute no participants (their
`playersOf` is empty, so they add nothing to the flattened traversal). -/
theorem extract_unique_first_wins (plays : List APIPlay) (k name : String) :
    dictLookup k (extract_unique_items plays) =
      (plays.find? (fun p => p.item.objectid == k)).map (fun p => p.item)
    ∧ dictLookup name (extract_unique_players plays) =
        (plays.flatMap playersOf).find? (fun pl => pl.name == name) := by
  constructor
  · rw [extract_unique_items, extract_unique_items_go_lookup]
    rfl
  · rw [extract_unique_players, extract_unique_players_eq_go_flat,
        extract_unique_players_go_lookup]
    rfl

/-! ### C5: prepare_plays -/

/-- C5: `prepare_plays` is total; it keeps exactly the plays whose item
objectid is in `items_mapping` (all others are skipped with a warning),
emits for each kept play exactly one payload whose `Item` field is the
mapped surrogate row id, and preserves the input order of kept plays. -/
theorem prepare_plays_skip_and_resolve (plays : List APIPlay)
    (items_mapping : List (String × Nat)) :
    prepare_plays plays items_mapping =
      (plays.filter (fun p => (dictLookup p.item.objectid items_mapping).isSome)).map
        (fun p => mkGristPlayUpsert p ((dictLookup p.item.objectid items_mapping).getD 0)) := by
  induction plays with
  | nil => rfl
  | cons p rest ih =>
    cases hp : dictLookup p.item.objectid items_mapping with
    | none =>
      rw [prepare_plays]
      simp [hp, List.filter_cons, ih]
    | some gid =>
      rw [prepare_plays]
      simp [hp, List.filter_cons, ih]

/-! ### C1 and C4: the overlap-bounded fetcher -/

theorem pageOverlaps_false_filter (page : List APIPlay) (existing : List String)
    (h : pageOverlaps page existing = false) :
    page.filter (fun play => !(existing.contains play.id)) = page := by
  rw [List.filter_eq_self]
  intro play hmem
  have := List.any_eq_false.mp h play hmem
  simp only [Bool.not_eq_true] at this
  simpa using this

theorem pageOverlaps_ne_nil (page : List APIPlay) (existing : List String)
    (h : pageOverlaps page existing = true) : page.isEmpty = false := by
  obtain ⟨play, hmem, -⟩ := List.any_eq_true.mp h
  cases page with
  | nil => cases hmem
  | cons a l => rfl

/-- C1: overlap termination. If the source's pages are `pre ++ pageK ::
rest` where every page before `pageK` is full (100 plays) and free of
overlap with `existing`, and `pageK`'s ids intersect `existing`, then
the fetcher requests exactly the pages up to and including `pageK`
(none of `rest`) and returns precisely the plays of pages 1..k whose id
is not in `existing`, in original page order. -/
theorem fetch_overlap_termination (existing : List String)
    (pre rest : List (List APIPlay)) (pageK : List APIPlay)
    (hfull : ∀ p ∈ pre, p.length = 100)
    (hno : ∀ p ∈ pre, pageOverlaps p existing = false)
    (hov : pageOverlaps pageK existing = true) :
    fetch_new_plays_until_overlap existing (pre ++ pageK :: rest)
        = (pre ++ [pageK]).flatten.filter (fun play => !(existing.contains play.id))
      ∧ pagesRequested existing (pre ++ pageK :: rest) = pre.length + 1 := by
  induction pre with
  | nil =>
    have hne := pageOverlaps_ne_nil pageK existing hov
    constructor
    · rw [List.nil_append, fetch_new_plays_until_overlap, hne, if_neg (by simp), if_pos hov]
      simp
    · rw [List.nil_append, pagesRequested, hne, if_neg (by simp), if_pos hov]
      rfl
  | cons p pre' ih =>
    have hp100 : p.length = 100 := hfull p (List.mem_cons_self p pre')
    have hpne : p.isEmpty = false := by
      cases p with
      | nil => simp at hp100
      | cons a l => rfl
    have hpno : pageOverlaps p existing = false := hno p (List.mem_cons_self p pre')
    have hnotshort : ¬(p.length < 100) := by omega
    obtain ⟨ih1, ih2⟩ := ih (fun q hq => hfull q (List.mem_cons_of_mem p hq))
      (fun q hq => hno q (List.mem_cons_of_mem p hq))
    constructor
    · rw [List.cons_append, fetch_new_plays_until_overlap, hpne, if_neg (by simp),
          hpno, if_neg (by simp), if_neg hnotshort, ih1]
      rw [List.cons_append, List.flatten_cons, List.filter_append,
          pageOverlaps_false_filter p existing hpno]
    · rw [List.cons_append, pagesRequested, hpne, if_neg (by simp),
          hpno, if_neg (by simp), if_neg hnotshort, ih2]
      simp [List.length_cons]
      omega

/-- Witness for C1 at a concrete input: one page whose ids intersect the
existing set `["a"]`; the fetcher stops after that page and keeps only
the new play. -/
theorem fetch_overlap_termination_witness :
    fetch_new_plays_until_overlap ["a"] [[samplePlay "a", samplePlay "b"]]
        = [samplePlay "b"]
      ∧ pagesRequested ["a"] [[samplePlay "a", samplePlay "b"]] = 1 := by
  have h := fetch_overlap_termination ["a"] [] [] [samplePlay "a", samplePlay "b"]
    (by intro p hp; cases hp) (by intro p hp; cases hp) (by decide)
  obtain ⟨h1, h2⟩ := h
  constructor
  · rw [List.nil_append] at h1
    rw [h1]
    decide
  · rw [List.nil_append] at h2
    simpa using h2

/-- C4: full sync when `existing_play_ids` is empty. No page can overlap
the empty set, so the fetcher walks every page (each non-final page
being full per the source API) appending all of its plays, stops only at
an empty or shorter-than-100 page, and returns the concatenation of all
pages in order. -/
theorem fetch_full_sync (pages : List (List APIPlay))
    (hfull : ∀ p ∈ pages.dropLast, p.length = 100) :
    fetch_new_plays_until_overlap [] pages = pages.flatten
      ∧ ∀ page : List APIPlay, pageOverlaps page [] = false := by
  have hnoov : ∀ page : List APIPlay, pageOverlaps page [] = false := by
    intro page
    rw [pageOverlaps, List.any_eq_false]
    intro play hmem
    simp
  refine ⟨?_, hnoov⟩
  induction pages with
  | nil => rfl
  | cons p rest ih =>
    cases rest with
    | nil =>
      rw [fetch_new_plays_until_overlap]
      cases hpe : p.isEmpty
      · rw [if_neg (by simp), hnoov p, if_neg (by simp)]
        by_cases hlen : p.length < 100
        · rw [if_pos hlen]
          simp
        · rw [if_neg hlen]
          simp [fetch_new_plays_until_overlap]
      · have : p = [] := List.isEmpty_iff.mp hpe
        subst this
        simp
    | cons q rest' =>
      have hp100 : p.length = 100 := by
        apply hfull
        rw [List.dropLast_cons₂]
        exact List.mem_cons_self p _
      have hpne : p.isEmpty = false := by
        cases p with
        | nil => simp at hp100
        | cons a l => rfl
      have hrest : ∀ r ∈ (q :: rest').dropLast, r.length = 100 := by
        intro r hr
        apply hfull
        rw [List.dropLast_cons₂]
        exact List.mem_cons_of_mem p hr
      rw [fetch_new_plays_until_overlap, hpne, if_neg (by simp), hnoov p,
          if_neg (by simp), if_neg (by omega), ih hrest]
      simp [List.flatten_cons]

/-- Witness for C4 at a concrete input: a single short page is returned
whole, and the overlap test against the empty set is false on it. -/
theorem fetch_full_sync_witness :
    fetch_new_plays_until_overlap [] [[samplePlay "a"]] = [samplePlay "a"]
      ∧ pageOverlaps [samplePlay "a"] [] = false := by
  have h := fetch_full_sync [[samplePlay "a"]] (by intro p hp; cases hp)
  obtain ⟨h1, h2⟩ := h
  constructor
  · rw [h1]
    decide
  · exact h2 [samplePlay "a"]

/-! ### C6: validate_sync -/

theorem dupLoop_eq_nil (l : List String) :
    ∀ seen, dupLoop seen l = [] ↔ (∀ x ∈ l, seen.contains x = false) ∧ l.Nodup := by
  induction l with
  | nil =>
    intro seen
    simp [dupLoop]
  | cons x rest ih =>
    intro seen
    cases hc : seen.contains x
    · rw [dupLoop, hc, if_neg (by simp), ih]
      simp only [List.mem_cons, List.nodup_cons, List.contains_cons, Bool.or_eq_false_iff,
                 beq_eq_false_iff_ne, ne_eq]
      constructor
      · rintro ⟨hall, hnd⟩
        refine ⟨?_, ?_, hnd⟩
        · intro y hy
          rcases hy with rfl | hy
          · exact hc
          · exact (hall y hy).2
        · intro hxmem
          exact (hall x hxmem).1 rfl
      · rintro ⟨hall, hnotin, hnd⟩
        refine ⟨?_, hnd⟩
        intro y hy
        refine ⟨?_, hall y (Or.inr hy)⟩
        intro heq
        exact hnotin (heq ▸ hy)
    · rw [dupLoop, hc, if_pos rfl]
      constructor
      · intro h
        cases h
      · rintro ⟨hall, -⟩
        have := hall x (List.mem_cons_self x rest)
        rw [this] at hc
        cases hc

theorem duplicate_play_ids_nil_iff (plays_data : List GristPlayOutput) :
    (duplicate_play_ids plays_data).isEmpty = true ↔
      (plays_data.map (fun play => play.PlayID)).Nodup := by
  rw [duplicate_play_ids, List.isEmpty_iff, dupLoop_eq_nil]
  simp

theorem duplicate_item_ids_nil_iff (items_data : List GristItemOutput) :
    (duplicate_item_ids items_data).isEmpty = true ↔
      (items_data.map (fun item => item.ItemID)).Nodup := by
  rw [duplicate_item_ids, List.isEmpty_iff, dupLoop_eq_nil]
  simp

theorem invalid_play_items_nil_iff (items_data : List GristItemOutput)
    (plays_data : List GristPlayOutput) :
    (invalid_play_items items_data plays_data).isEmpty = true ↔
      ∀ play ∈ plays_data, play.Item ∈ items_data.map (fun item => item.id) := by
  rw [invalid_play_items, List.isEmpty_iff, List.filter_eq_nil_iff]
  simp

theorem invalid_player_plays_nil_iff (players_data : List GristPlayerOutput)
    (plays_data : List GristPlayOutput) (player_plays_data : List GristPlayerPlayOutput) :
    (invalid_player_plays players_data plays_data player_plays_data).isEmpty = true ↔
      ∀ pp ∈ player_plays_data,
        pp.Play ∈ plays_data.map (fun play => play.id)
        ∧ pp.Player ∈ players_data.map (fun player => player.id) := by
  rw [invalid_player_plays, List.isEmpty_iff, List.flatMap_eq_nil_iff]
  refine forall_congr' (fun pp => forall_congr' (fun hmem => ?_))
  by_cases h1 : pp.Play ∈ plays_data.map (fun play => play.id) <;>
    by_cases h2 : pp.Player ∈ players_data.map (fun player => player.id) <;>
    simp [h1, h2]

theorem validate_sync_eq_and (items_data : List GristItemOutput)
    (players_data : List GristPlayerOutput) (plays_data : List GristPlayOutput)
    (player_plays_data : List GristPlayerPlayOutput) :
    validate_sync items_data players_data plays_data player_plays_data =
      ((invalid_play_items items_data plays_data).isEmpty
       && (invalid_player_plays players_data plays_data player_plays_data).isEmpty
       && (duplicate_play_ids plays_data).isEmpty
       && (duplicate_item_ids items_data).isEmpty) := by
  simp only [validate_sync]
  cases h2 : (invalid_play_items items_data plays_data).isEmpty <;>
    cases h3 : (invalid_player_plays players_data plays_data player_plays_data).isEmpty <;>
    cases h4 : (duplicate_play_ids plays_data).isEmpty <;>
    cases h5 : (duplicate_item_ids items_data).isEmpty <;>
    simp

/-- C6: `validate_sync` accounts for every one of checks 2–5 — it
returns `true` exactly when all plays reference existing item rows, all
player-play links reference existing play and player rows, and there is
no duplicate `PlayID` or `ItemID`; a violation found by any of these
checks makes the result `false` no matter which check found it. The
play-count of check 1 does not occur in the condition at all: a zero
play count (empty `plays_data`) with the other checks clean leaves the
result `true` (it only logs a warning). -/
theorem validate_sync_iff (items_data : List GristItemOutput)
    (players_data : List GristPlayerOutput) (plays_data : List GristPlayOutput)
    (player_plays_data : List GristPlayerPlayOutput) :
    validate_sync items_data players_data plays_data player_plays_data = true ↔
      ((∀ play ∈ plays_data, play.Item ∈ items_data.map (fun item => item.id))
       ∧ (∀ pp ∈ player_plays_data,
            pp.Play ∈ plays_data.map (fun play => play.id)
            ∧ pp.Player ∈ players_data.map (fun player => player.id))
       ∧ (plays_data.map (fun play => play.PlayID)).Nodup
       ∧ (items_data.map (fun item => item.ItemID)).Nodup) := by
  rw [validate_sync_eq_and]
  simp only [Bool.and_eq_true]
  rw [invalid_play_items_nil_iff, invalid_player_plays_nil_iff,
      duplicate_play_ids_nil_iff, duplicate_item_ids_nil_iff]
  tauto

/-! ### C7: baseline mindate -/

theorem mem_insertDesc (x y : GristPlayOutput) (l : List GristPlayOutput) :
    y ∈ insertDesc x l ↔ y = x ∨ y ∈ l := by
  induction l with
  | nil => simp [insertDesc]
  | cons z zs ih =>
    rw [insertDesc]
    by_cases h : z.Date ≤ x.Date
    · simp [h]
    · rw [if_neg h]
      simp only [List.mem_cons, ih]
      tauto

theorem mem_sortByDateDesc (rows : List GristPlayOutput) (y : GristPlayOutput) :
    y ∈ sortByDateDesc rows ↔ y ∈ rows := by
  induction rows with
  | nil => simp [sortByDateDesc]
  | cons r rest ih =>
    rw [sortByDateDesc, List.foldr_cons, mem_insertDesc]
    rw [sortByDateDesc] at ih
    simp [ih]

theorem sortByDateDesc_head_max (rows : List GristPlayOutput) :
    ∀ h t, sortByDateDesc rows = h :: t → ∀ r ∈ rows, r.Date ≤ h.Date := by
  induction rows with
  | nil =>
    intro h t heq
    simp [sortByDateDesc] at heq
  | cons x rest ih =>
    intro h t heq r hr
    rw [show sortByDateDesc (x :: rest) = insertDesc x (sortByDateDesc rest) from rfl] at heq
    cases hs : sortByDateDesc rest with
    | nil =>
      rw [hs, insertDesc] at heq
      obtain ⟨rfl, -⟩ := List.cons.injEq .. |>.mp heq
      rcases List.mem_cons.mp hr with rfl | hr
      · exact le_refl _
      · exfalso
        have : r ∈ sortByDateDesc rest := (mem_sortByDateDesc rest r).mpr hr
        rw [hs] at this
        cases this
    | cons y ys =>
      rw [hs, insertDesc] at heq
      by_cases hcmp : y.Date ≤ x.Date
      · rw [if_pos hcmp] at heq
        obtain ⟨rfl, -⟩ := List.cons.injEq .. |>.mp heq
        rcases List.mem_cons.mp hr with rfl | hr
        · exact le_refl _
        · exact le_trans (ih y ys hs r hr) hcmp
      · rw [if_neg hcmp] at heq
        obtain ⟨rfl, -⟩ := List.cons.injEq .. |>.mp heq
        rcases List.mem_cons.mp hr with rfl | hr
        · exact le_of_lt (lt_of_not_le hcmp)
        · exact ih y ys hs r hr

theorem dictInsert_ne_nil {α : Type} (m : List (String × α)) (k : String) (v : α) :
    dictInsert m k v ≠ [] := by
  rw [dictInsert]
  by_cases h : (dictLookup k m).isSome
  · rw [if_pos h]
    cases m with
    | nil => simp [dictLookup] at h
    | cons a l => simp
  · rw [if_neg h]
    simp

theorem foldl_dictInsert_ne_nil (l : List GristPlayOutput) :
    ∀ (m : List (String × Nat)), m ≠ [] ∨ l ≠ [] →
      l.foldl (fun m p => dictInsert m p.PlayID p.id) m ≠ [] := by
  induction l with
  | nil =>
    intro m h
    rcases h with h | h
    · exact h
    · exact absurd rfl h
  | cons p rest ih =>
    intro m _
    rw [List.foldl_cons]
    exact ih _ (Or.inl (dictInsert_ne_nil m p.PlayID p.id))

/-- C7: the minimum fetch date `run_sync` computes. With no stored plays
the mindate stays unset (full-history pull); with at least one stored
play it is the most recent stored play date (the maximum `Date` over the
table, i.e. the head of the date-descending listing) minus exactly one
day. -/
theorem run_sync_mindate_spec (table : List GristPlayOutput) :
    (table = [] → run_sync_mindate table = none)
    ∧ (table ≠ [] → ∃ h, h ∈ table ∧ (∀ r ∈ table, r.Date ≤ h.Date)
        ∧ run_sync_mindate table = some (h.Date - 1)) := by
  constructor
  · rintro rfl
    rfl
  · intro hne
    cases hs : sortByDateDesc table with
    | nil =>
      exfalso
      cases table with
      | nil => exact hne rfl
      | cons r rest =>
        have : r ∈ sortByDateDesc (r :: rest) :=
          (mem_sortByDateDesc _ _).mpr (List.mem_cons_self r rest)
        rw [hs] at this
        cases this
    | cons h t =>
      have h100 : list_records_by_date_desc table 100 = h :: t.take 99 := by
        rw [list_records_by_date_desc, hs]
        rfl
      have h1 : list_records_by_date_desc table 1 = [h] := by
        rw [list_records_by_date_desc, hs]
        rfl
      refine ⟨h, ?_, ?_, ?_⟩
      · exact (mem_sortByDateDesc table h).mp (hs ▸ List.mem_cons_self h t)
      · exact sortByDateDesc_head_max table h t hs
      · rw [run_sync_mindate, h100, h1]
        simp only [run_sync_baseline]
        rw [if_neg ?hcond]
        case hcond =>
          rw [get_recent_plays_from_grist, List.isEmpty_iff]
          exact foldl_dictInsert_ne_nil _ _ (Or.inr (by simp))
        rfl

/-- Witness for C7 at a concrete input: a one-row table yields the row's
date minus one day. -/
theorem run_sync_mindate_spec_witness :
    ([samplePlayRow] ≠ ([] : List GristPlayOutput))
    ∧ ∃ h, h ∈ [samplePlayRow] ∧ (∀ r ∈ [samplePlayRow], r.Date ≤ h.Date)
        ∧ run_sync_mindate [samplePlayRow] = some (h.Date - 1) :=
  ⟨by decide, (run_sync_mindate_spec [samplePlayRow]).2 (by decide)⟩

/-! ### C9: store listing failure falls back to full sync -/

/-- C9: when listing recent plays raises, `get_recent_plays_from_grist`
catches the exception and returns the empty mapping, so the baseline
phase of `run_sync` produces an empty `existing_play_ids` and an unset
mindate — exactly the full-history (empty store) path — instead of
failing the run. -/
theorem recent_plays_error_fallback (e : String)
    (resp2 : Except String (List GristPlayOutput)) :
    get_recent_plays_from_grist (.error e) = []
    ∧ run_sync_baseline (.error e) resp2 = ([], none)
    ∧ run_sync_baseline (.error e) resp2 = run_sync_baseline (.ok []) resp2 :=
  ⟨rfl, rfl, rfl⟩

/-! ### C10: sync_plays frame condition -/

/-- C10: when every play in `plays_list` has a `PlayID` already present
in `existing_play_ids`, `sync_plays` filters everything out, performs no
store call at all (empty operation trace, so neither a write nor a
read-back), and returns `existing_play_ids` unchanged. -/
theorem sync_plays_frame (plays_list : List GristPlayUpsert)
    (existing_play_ids : List (String × Nat)) (readBack : List GristPlayOutput)
    (h : ∀ p ∈ plays_list, (dictLookup p.PlayID existing_play_ids).isSome = true) :
    sync_plays plays_list existing_play_ids readBack = (existing_play_ids, []) := by
  have hfilter :
      plays_list.filter (fun p => (dictLookup p.PlayID existing_play_ids).isNone) = [] := by
    rw [List.filter_eq_nil_iff]
    intro p hp
    have hs := h p hp
    intro hn
    rw [Option.isNone_iff_eq_none] at hn
    rw [hn] at hs
    cases hs
  simp [sync_plays, hfilter]

/-- Witness for C10 at a concrete input: the single play's id `"a"` is
already mapped, so nothing is written or read and the mapping is
returned as given. -/
theorem sync_plays_frame_witness :
    sync_plays [samplePlayUpsert] [("a", 5)] [] = ([("a", 5)], []) :=
  sync_plays_frame [samplePlayUpsert] [("a", 5)] [] (by decide)

/-! ### C2: write semantics of the four tables -/

/-- C2 counterexample: `sync_player_plays` does NOT upsert by the
(play-row, player-row) natural key. Writing a payload whose key pair
(Play = 1, Player = 2) matches the one existing row appends a second
identical row: afterwards two rows carry that key, where the claimed
upsert semantics would have left exactly one. -/
theorem player_plays_write_duplicates_key :
    sync_player_plays_write [samplePlayerPlay.model_dump] [samplePlayerPlay]
        = [samplePlayerPlay.model_dump, samplePlayerPlay.model_dump]
    ∧ ((sync_player_plays_write [samplePlayerPlay.model_dump] [samplePlayerPlay]).filter
        (fun row => matchesRequire samplePlayerPlay.to_upsert_record.require row)).length
      = 2 := by
  constructor
  · decide
  · decide

/-- C2 amended: `sync_items`, `sync_players` and `sync_plays` write with
upsert-by-natural-key semantics (a second payload with the same natural
key updates the matching row's non-key fields, leaving a single row),
while `sync_player_plays` uses plain insertion (`add_records`): every
payload is appended as a new row, so a payload whose (Play, Player) key
matches an existing row produces a second row with that key instead of
updating it. -/
theorem sync_write_upsert_semantics :
    (∀ i i' : GristItemUpsert, i.ItemID = i'.ItemID →
      sync_items_write (sync_items_write [] [(i.ItemID, i)]) [(i'.ItemID, i')]
        = [i'.to_upsert_record.require ++ i'.to_upsert_record.fields])
    ∧ (∀ p p' : GristPlayerUpsert, p.Name = p'.Name →
      sync_players_write (sync_players_write [] [(p.Name, p)]) [(p'.Name, p')]
        = [p'.to_upsert_record.require ++ p'.to_upsert_record.fields])
    ∧ (∀ q q' : GristPlayUpsert, q.PlayID = q'.PlayID →
      sync_plays_write (sync_plays_write [] [q] []) [q'] []
        = [q'.to_upsert_record.require ++ q'.to_upsert_record.fields])
    ∧ (∀ (table : List GRow) (pp : GristPlayerPlayUpsert),
      (sync_player_plays_write table [pp]).filter
          (fun row => matchesRequire pp.to_upsert_record.require row)
        = table.filter (fun row => matchesRequire pp.to_upsert_record.require row)
          ++ [pp.model_dump]) := by
  refine ⟨?_, ?_, ?_, ?_⟩
  · intro i i' h
    simp [sync_items_write, add_update_records, upsertOne, matchesRequire,
          updateFields, setField, dictLookup, GristItemUpsert.to_upsert_record, h]
  · intro p p' h
    simp [sync_players_write, add_update_records, upsertOne, matchesRequire,
          updateFields, setField, dictLookup, GristPlayerUpsert.to_upsert_record, h]
  · intro q q' h
    simp [sync_plays_write, add_update_records, upsertOne, matchesRequire,
          updateFields, setField, dictLookup, GristPlayUpsert.to_upsert_record, h]
  · intro table pp
    have hmatch : matchesRequire pp.to_upsert_record.require pp.model_dump = true := by
      simp [matchesRequire, dictLookup, GristPlayerPlayUpsert.to_upsert_record,
            GristPlayerPlayUpsert.model_dump]
    simp [sync_player_plays_write, add_records, List.filter_append, hmatch]

/-- Witness for C2's amended claim at concrete inputs: the sample item,
player and play payload pairs share their natural key, and the sample
link payload is appended. -/
theorem sync_write_upsert_semantics_witness :
    sync_items_write (sync_items_write [] [(sampleItemUpsert.ItemID, sampleItemUpsert)])
        [(sampleItemUpsertB.ItemID, sampleItemUpsertB)]
      = [sampleItemUpsertB.to_upsert_record.require ++ sampleItemUpsertB.to_upsert_record.fields]
    ∧ sync_players_write (sync_players_write [] [(samplePlayerUpsert.Name, samplePlayerUpsert)])
        [(samplePlayerUpsertB.Name, samplePlayerUpsertB)]
      = [samplePlayerUpsertB.to_upsert_record.require
         ++ samplePlayerUpsertB.to_upsert_record.fields]
    ∧ sync_plays_write (sync_plays_write [] [samplePlayUpsert] []) [samplePlayUpsertB] []
      = [samplePlayUpsertB.to_upsert_record.require ++ samplePlayUpsertB.to_upsert_record.fields]
    ∧ (sync_player_plays_write [] [samplePlayerPlay]).filter
          (fun row => matchesRequire samplePlayerPlay.to_upsert_record.require row)
      = ([] : List GRow).filter
          (fun row => matchesRequire samplePlayerPlay.to_upsert_record.require row)
        ++ [samplePlayerPlay.model_dump] :=
  ⟨sync_write_upsert_semantics.1 sampleItemUpsert sampleItemUpsertB rfl,
   sync_write_upsert_semantics.2.1 samplePlayerUpsert samplePlayerUpsertB rfl,
   sync_write_upsert_semantics.2.2.1 samplePlayUpsert samplePlayUpsertB rfl,
   sync_write_upsert_semantics.2.2.2 [] samplePlayerPlay⟩

/-! ### C3: exception propagation out of the sync phases -/

/-- C3 counterexample: an exception raised inside `sync_players` is NOT
caught at that phase boundary — it reaches `run_sync`'s top-level
handler, the run ends with `False`, and the subsequent phases
(`sync_items` among them) never execute, contrary to the claim that they
still run. -/
theorem sync_phase_abort_counterexample :
    run_sync_flow (fun ph => decide (ph = SyncPhase.syncPlayersPhase))
        = ([SyncPhase.fetchBaseline, SyncPhase.fetchNew, SyncPhase.prepareEntities,
            SyncPhase.syncPlayersPhase], false)
    ∧ SyncPhase.syncItemsPhase ∉
        (run_sync_flow (fun ph => decide (ph = SyncPhase.syncPlayersPhase))).1 := by
  constructor
  · decide
  · decide

/-- C3 amended: an exception raised inside any of the four `sync_*`
phases (none of which has its own `try/except`) propagates to
`run_sync`'s single top-level handler: the run returns `False` and
exactly the phases up to and including the raising one have executed —
no later phase runs. Only `get_recent_plays_from_grist` /
`get_most_recent_play_date` (the baseline phase) and `validate_sync`
catch exceptions internally. -/
theorem run_sync_abort_on_phase_error (f : SyncPhase → Bool) (ph : SyncPhase)
    (hmem : ph ∈ [SyncPhase.syncPlayersPhase, SyncPhase.syncItemsPhase,
                  SyncPhase.syncPlaysPhase, SyncPhase.syncPlayerPlaysPhase])
    (hf : f ph = true)
    (hpre : ∀ q : SyncPhase, phaseIdx q < phaseIdx ph → f q = false) :
    run_sync_flow f
      = (phaseOrder.filter (fun q => decide (phaseIdx q ≤ phaseIdx ph)), false) := by
  fin_cases hmem
  · have h1 : f SyncPhase.fetchNew = false := hpre _ (by decide)
    have h2 : f SyncPhase.prepareEntities = false := hpre _ (by decide)
    simp [run_sync_flow, phaseOrder, runPhasesFrom, catchesInternally, phaseIdx,
          h1, h2, hf]
  · have h1 : f SyncPhase.fetchNew = false := hpre _ (by decide)
    have h2 : f SyncPhase.prepareEntities = false := hpre _ (by decide)
    have h3 : f SyncPhase.syncPlayersPhase = false := hpre _ (by decide)
    simp [run_sync_flow, phaseOrder, runPhasesFrom, catchesInternally, phaseIdx,
          h1, h2, h3, hf]
  · have h1 : f SyncPhase.fetchNew = false := hpre _ (by decide)
    have h2 : f SyncPhase.prepareEntities = false := hpre _ (by decide)
    have h3 : f SyncPhase.syncPlayersPhase = false := hpre _ (by decide)
    have h4 : f SyncPhase.syncItemsPhase = false := hpre _ (by decide)
    simp [run_sync_flow, phaseOrder, runPhasesFrom, catchesInternally, phaseIdx,
          h1, h2, h3, h4, hf]
  · have h1 : f SyncPhase.fetchNew = false := hpre _ (by decide)
    have h2 : f SyncPhase.prepareEntities = false := hpre _ (by decide)
    have h3 : f SyncPhase.syncPlayersPhase = false := hpre _ (by decide)
    have h4 : f SyncPhase.syncItemsPhase = false := hpre _ (by decide)
    have h5 : f SyncPhase.syncPlaysPhase = false := hpre _ (by decide)
    simp [run_sync_flow, phaseOrder, runPhasesFrom, catchesInternally, phaseIdx,
          h1, h2, h3, h4, h5, hf]

/-- Witness for C3's amended claim at a concrete input: a store error in
`sync_plays` alone makes the run fail right there, the two remaining
phases not executing. -/
theorem run_sync_abort_on_phase_error_witness :
    run_sync_flow (fun q => decide (q = SyncPhase.syncPlaysPhase))
      = ([SyncPhase.fetchBaseline, SyncPhase.fetchNew, SyncPhase.prepareEntities,
          SyncPhase.syncPlayersPhase, SyncPhase.syncItemsPhase, SyncPhase.syncPlaysPhase],
         false) := by
  have h := run_sync_abort_on_phase_error (fun q => decide (q = SyncPhase.syncPlaysPhase))
      SyncPhase.syncPlaysPhase (by decide) (by decide)
      (by intro q; cases q <;> decide)
  rw [h]
  decide

end GeekdoSync
